import Mathlib

/-!
golang-example: the five user handlers over an explicit store.

The handlers of `controller/controller.go` are embedded as pure functions that
take the store and the request and return the response together with the
store afterwards.  The data model is `model.User` of `model/model.go`.

The handlers call into collaborators that are not part of the repository;
each is embedded next to the call it stands for:

* `encoding/json`, behind gin's `ShouldBindJSON`: the scanner that reads the
  first JSON value of the body is transcribed state by state; what the
  decoder then makes of that value (the matching of keys with fields, the
  values of strings, numbers and times) is the argument `codec`;
* gin's binding: the checks of the `binding` tag;
* gorm over SQLite (`Find`, `First`, `Create`, `Updates`, `Delete`): one table
  of rows listed by key, with 64-bit keys and an AUTOINCREMENT counter; the
  store's reading of a path segment as a key is the argument `key`;
* the clock (`now`), an argument of the handlers that write timestamps.
-/

set_option maxRecDepth 100000

namespace GolangExample

/-! ## model/model.go -/

/-- A `time.Time` value: the instant it denotes, counted from Go's zero time,
and the location attached to it, `0` for none (UTC).  The zero value of the
type is the zero instant without a location. -/
structure Time where
  instant : Int
  loc : Nat
deriving DecidableEq, Repr

/-- The zero value `time.Time{}`. -/
def Time.zero : Time := { instant := 0, loc := 0 }

/-- The struct `model.User` (model.go, lines 9-18).  `ID` is a Go `uint`. -/
structure User where
  ID : Nat
  FirstName : String
  LastName : String
  DateOfBirth : Time
  Ethnicity : String
  Role : String
  CreatedAt : Time
  UpdatedAt : Time
deriving DecidableEq, Repr

/-- The store behind `model.DB`: the rows of table `users`, in the order
SQLite lists them (by key), as the values gorm reads from them, and the
AUTOINCREMENT counter SQLite keeps for the table (the largest key it has
handed out so far). -/
structure DB where
  users : List User
  seq : Nat
deriving DecidableEq, Repr

/-! ## The response -/

/-- The values the handlers put under a key of `gin.H`. -/
inductive Value where
  | null
  | string (s : String)
  | object (u : User)
  | array (us : List User)
deriving DecidableEq, Repr

/-- A Go value of type `[]model.User`; `none` is the nil slice. -/
abbrev Slice := Option (List User)

/-- The JSON a slice is rendered as: `null` for the nil slice, an array for
every other one, the empty slice included. -/
def Value.ofSlice : Slice → Value
  | none => .null
  | some us => .array us

/-- The map `gin.H`, as the list of its keys with their values. -/
abbrev H := List (String × Value)

/-- What `c.JSON(code, obj)` writes: the status code and the JSON body. -/
structure Response where
  Code : Nat
  Body : H
deriving DecidableEq, Repr

def StatusOK : Nat := 200
def StatusCreated : Nat := 201
def StatusBadRequest : Nat := 400
def StatusNotFound : Nat := 404

/-- The call `c.JSON(code, obj)`. -/
def JSON (code : Nat) (obj : H) : Response := { Code := code, Body := obj }

/-! ## encoding/json: the scanner

`json.Decoder.Decode`, which gin's `ShouldBindJSON` calls once, reads one JSON
value from the start of the body and stops there.  The states and their
transitions are those of the scanner of `encoding/json`; a request body is a
`String`, the text it holds. -/

/-- The double quote. -/
def quote : Char := Char.ofNat 34

/-- The backslash. -/
def backslash : Char := Char.ofNat 92

/-- The opening brace. -/
def leftBrace : Char := Char.ofNat 123

/-- The closing brace. -/
def rightBrace : Char := Char.ofNat 125

/-- The state functions of the scanner. -/
inductive Step where
  | stateBeginValueOrEmpty | stateBeginValue | stateBeginStringOrEmpty | stateBeginString
  | stateEndValue | stateEndTop
  | stateInString | stateInStringEsc | stateInStringEscU | stateInStringEscU1
  | stateInStringEscU12 | stateInStringEscU123
  | stateNeg | state1 | state0 | stateDot | stateDot0 | stateE | stateESign | stateE0
  | stateT | stateTr | stateTru | stateF | stateFa | stateFal | stateFals
  | stateN | stateNu | stateNul
  | stateError
deriving DecidableEq, Repr

/-- What the scanner is in the middle of: an object, before a key or after a
value, or an array. -/
inductive ParseState where
  | parseObjectKey | parseObjectValue | parseArrayValue
deriving DecidableEq, Repr

/-- The codes a state function returns. -/
inductive Code where
  | scanContinue | scanBeginLiteral | scanBeginObject | scanObjectKey | scanObjectValue
  | scanEndObject | scanBeginArray | scanArrayValue | scanEndArray | scanSkipSpace
  | scanEnd | scanError
deriving DecidableEq, Repr

/-- The scanner: its next state function and the stack of what it is in the
middle of, innermost first. -/
structure Scanner where
  step : Step
  parseState : List ParseState
deriving DecidableEq, Repr

def maxNestingDepth : Nat := 10000

def isSpace (c : Char) : Bool :=
  c == ' ' || c == '\t' || c == '\r' || c == '\n'

def isDigit (c : Char) : Bool :=
  '0' ≤ c && c ≤ '9'

def isHex (c : Char) : Bool :=
  ('0' ≤ c && c ≤ '9') || ('a' ≤ c && c ≤ 'f') || ('A' ≤ c && c ≤ 'F')

/-- The scanner records an error: every later character is an error too. -/
def Scanner.error (s : Scanner) : Scanner × Code :=
  ({ s with step := .stateError }, .scanError)

/-- Set the next state function and return a code. -/
def Scanner.goto (s : Scanner) (step : Step) (code : Code) : Scanner × Code :=
  ({ s with step := step }, code)

def Scanner.pushParseState (s : Scanner) (newParseState : ParseState) (successState : Code) :
    Scanner × Code :=
  let s : Scanner := { s with parseState := newParseState :: s.parseState }
  if s.parseState.length ≤ maxNestingDepth then (s, successState) else s.error

def Scanner.popParseState (s : Scanner) : Scanner :=
  match s.parseState.tail with
  | [] => { step := .stateEndTop, parseState := [] }
  | rest => { step := .stateEndValue, parseState := rest }

/-- After the top-level value: the value has ended; a character that is not
a space is complained about on the next call only. -/
def stateEndTop (s : Scanner) (c : Char) : Scanner × Code :=
  if isSpace c then (s, .scanEnd) else ({ s with step := .stateError }, .scanEnd)

/-- After a value: a key's colon, a comma, or the end of the enclosing object
or array; outside of any, the top-level value has ended. -/
def stateEndValue (s : Scanner) (c : Char) : Scanner × Code :=
  match s.parseState with
  | [] => stateEndTop { s with step := .stateEndTop } c
  | ps :: rest =>
    if isSpace c then s.goto .stateEndValue .scanSkipSpace
    else
      match ps with
      | .parseObjectKey =>
        if c = ':' then
          ({ step := .stateBeginValue, parseState := .parseObjectValue :: rest }, .scanObjectKey)
        else s.error
      | .parseObjectValue =>
        if c = ',' then
          ({ step := .stateBeginString, parseState := .parseObjectKey :: rest }, .scanObjectValue)
        else if c = rightBrace then (s.popParseState, .scanEndObject)
        else s.error
      | .parseArrayValue =>
        if c = ',' then s.goto .stateBeginValue .scanArrayValue
        else if c = ']' then (s.popParseState, .scanEndArray)
        else s.error

def stateBeginValue (s : Scanner) (c : Char) : Scanner × Code :=
  if isSpace c then (s, .scanSkipSpace)
  else if c = leftBrace then
    Scanner.pushParseState { s with step := .stateBeginStringOrEmpty } .parseObjectKey
      .scanBeginObject
  else if c = '[' then
    Scanner.pushParseState { s with step := .stateBeginValueOrEmpty } .parseArrayValue
      .scanBeginArray
  else if c = quote then s.goto .stateInString .scanBeginLiteral
  else if c = '-' then s.goto .stateNeg .scanBeginLiteral
  else if c = '0' then s.goto .state0 .scanBeginLiteral
  else if c = 't' then s.goto .stateT .scanBeginLiteral
  else if c = 'f' then s.goto .stateF .scanBeginLiteral
  else if c = 'n' then s.goto .stateN .scanBeginLiteral
  else if '1' ≤ c ∧ c ≤ '9' then s.goto .state1 .scanBeginLiteral
  else s.error

def stateBeginValueOrEmpty (s : Scanner) (c : Char) : Scanner × Code :=
  if isSpace c then (s, .scanSkipSpace)
  else if c = ']' then stateEndValue s c
  else stateBeginValue s c

def stateBeginString (s : Scanner) (c : Char) : Scanner × Code :=
  if isSpace c then (s, .scanSkipSpace)
  else if c = quote then s.goto .stateInString .scanBeginLiteral
  else s.error

def stateBeginStringOrEmpty (s : Scanner) (c : Char) : Scanner × Code :=
  if isSpace c then (s, .scanSkipSpace)
  else if c = rightBrace then
    stateEndValue { s with parseState := .parseObjectValue :: s.parseState.tail } c
  else stateBeginString s c

def stateInString (s : Scanner) (c : Char) : Scanner × Code :=
  if c = quote then s.goto .stateEndValue .scanContinue
  else if c = backslash then s.goto .stateInStringEsc .scanContinue
  else if c.toNat < 32 then s.error
  else (s, .scanContinue)

def stateInStringEsc (s : Scanner) (c : Char) : Scanner × Code :=
  if c = 'b' ∨ c = 'f' ∨ c = 'n' ∨ c = 'r' ∨ c = 't' ∨ c = backslash ∨ c = '/' ∨ c = quote then
    s.goto .stateInString .scanContinue
  else if c = 'u' then s.goto .stateInStringEscU .scanContinue
  else s.error

/-- The four states after a backslash and `u`: a hexadecimal digit leads to
the next of them, the last one back into the string. -/
def stateInStringEscU (s : Scanner) (next : Step) (c : Char) : Scanner × Code :=
  if isHex c then s.goto next .scanContinue else s.error

def state0 (s : Scanner) (c : Char) : Scanner × Code :=
  if c = '.' then s.goto .stateDot .scanContinue
  else if c = 'e' ∨ c = 'E' then s.goto .stateE .scanContinue
  else stateEndValue s c

def stateNeg (s : Scanner) (c : Char) : Scanner × Code :=
  if c = '0' then s.goto .state0 .scanContinue
  else if '1' ≤ c ∧ c ≤ '9' then s.goto .state1 .scanContinue
  else s.error

def state1 (s : Scanner) (c : Char) : Scanner × Code :=
  if isDigit c then s.goto .state1 .scanContinue else state0 s c

def stateDot (s : Scanner) (c : Char) : Scanner × Code :=
  if isDigit c then s.goto .stateDot0 .scanContinue else s.error

def stateDot0 (s : Scanner) (c : Char) : Scanner × Code :=
  if isDigit c then (s, .scanContinue)
  else if c = 'e' ∨ c = 'E' then s.goto .stateE .scanContinue
  else stateEndValue s c

def stateESign (s : Scanner) (c : Char) : Scanner × Code :=
  if isDigit c then s.goto .stateE0 .scanContinue else s.error

def stateE (s : Scanner) (c : Char) : Scanner × Code :=
  if c = '+' ∨ c = '-' then s.goto .stateESign .scanContinue else stateESign s c

def stateE0 (s : Scanner) (c : Char) : Scanner × Code :=
  if isDigit c then (s, .scanContinue) else stateEndValue s c

/-- The states inside `true`, `false` and `null`: the one character that may
come next. -/
def stateLiteral (s : Scanner) (expect : Char) (next : Step) (c : Char) : Scanner × Code :=
  if c = expect then s.goto next .scanContinue else s.error

/-- The call `s.step(s, c)`. -/
def Scanner.next (s : Scanner) (c : Char) : Scanner × Code :=
  match s.step with
  | .stateBeginValueOrEmpty => stateBeginValueOrEmpty s c
  | .stateBeginValue => stateBeginValue s c
  | .stateBeginStringOrEmpty => stateBeginStringOrEmpty s c
  | .stateBeginString => stateBeginString s c
  | .stateEndValue => stateEndValue s c
  | .stateEndTop => stateEndTop s c
  | .stateInString => stateInString s c
  | .stateInStringEsc => stateInStringEsc s c
  | .stateInStringEscU => stateInStringEscU s .stateInStringEscU1 c
  | .stateInStringEscU1 => stateInStringEscU s .stateInStringEscU12 c
  | .stateInStringEscU12 => stateInStringEscU s .stateInStringEscU123 c
  | .stateInStringEscU123 => stateInStringEscU s .stateInString c
  | .stateNeg => stateNeg s c
  | .state1 => state1 s c
  | .state0 => state0 s c
  | .stateDot => stateDot s c
  | .stateDot0 => stateDot0 s c
  | .stateE => stateE s c
  | .stateESign => stateESign s c
  | .stateE0 => stateE0 s c
  | .stateT => stateLiteral s 'r' .stateTr c
  | .stateTr => stateLiteral s 'u' .stateTru c
  | .stateTru => stateLiteral s 'e' .stateEndValue c
  | .stateF => stateLiteral s 'a' .stateFa c
  | .stateFa => stateLiteral s 'l' .stateFal c
  | .stateFal => stateLiteral s 's' .stateFals c
  | .stateFals => stateLiteral s 'e' .stateEndValue c
  | .stateN => stateLiteral s 'u' .stateNu c
  | .stateNu => stateLiteral s 'l' .stateNul c
  | .stateNul => stateLiteral s 'l' .stateEndValue c
  | .stateError => (s, .scanError)

/-- The loop of `Decoder.readValue` over the characters not yet read: it stops
at the end of the first value (right after the closing bracket of a top-level
object or array, before the character after any other top-level value) and
gives the characters of the value and the characters it did not read; at the
end of the input the value must be complete.  `none` is a syntax error or an
input that ends too early. -/
def readValueFrom (s : Scanner) (read : List Char) : List Char → Option (List Char × List Char)
  | [] => if (s.next ' ').2 = .scanEnd then some (read.reverse, []) else none
  | c :: rest =>
    match s.next c with
    | (_, .scanEnd) => some (read.reverse, c :: rest)
    | (s, .scanEndObject) | (s, .scanEndArray) =>
      match stateEndValue s ' ' with
      | (_, .scanEnd) => some ((c :: read).reverse, rest)
      | (s, _) => readValueFrom s (c :: read) rest
    | (_, .scanError) => none
    | (s, _) => readValueFrom s (c :: read) rest

/-- The call `dec.readValue()` on a fresh decoder: the text of the first JSON
value of the body and the text after it. -/
def readValue (body : String) : Option (String × String) :=
  match readValueFrom { step := .stateBeginValue, parseState := [] } [] body.data with
  | none => none
  | some (value, rest) => some (String.mk value, String.mk rest)

/-- The function `json.Valid`: the text is syntactically valid JSON, that is
one JSON value with nothing but white space after it. -/
def Valid (body : String) : Bool :=
  match readValue body with
  | none => false
  | some (_, rest) => rest.data.all isSpace

/-! ## encoding/json: the decoder, and gin's binding -/

/-- The keys of a JSON object that `encoding/json` matches with the fields of
`model.User` (the `json` tags of model.go; the two timestamps carry no tag and
go by their field names), each with the value the decoder reads for it.
`none` is a key that is absent or `null`.  `id` holds the number a JSON
number written as an unsigned integer spells, of whatever size. -/
structure Object where
  id : Option Nat
  first_name : Option String
  last_name : Option String
  date_of_birth : Option Time
  ethnicity : Option String
  role : Option String
  CreatedAt : Option Time
  UpdatedAt : Option Time
deriving DecidableEq, Repr

/-- What `encoding/json` makes of text the scanner has dealt with; the codec
is a collaborator of the service and its answers are taken as they are.
`syntaxError` is the message of the error for a body from which no value can
be read.  `unmarshal` is the decoding of the text of one JSON value into a
`model.User`, up to the sizes of numbers: the object read (`null` reads as
the object without keys), or the message of the error for a value that is
not an object or holds, for a key, a value that is not of its field's
type. -/
structure Codec where
  syntaxError : String → String
  unmarshal : String → Except String Object

/-- What `Decoder.Decode` finds in a request body: an error, with its message,
or an object to store into the `model.User`. -/
inductive Payload where
  | undecodable (err : String)
  | object (o : Object)
deriving DecidableEq, Repr

/-- The call `decoder.Decode(obj)` of gin's JSON binding, up to the storing:
the decoder reads the first JSON value of the body, never looks at what comes
after it, and decodes that value. -/
def Decode (codec : Codec) (body : String) : Payload :=
  match readValue body with
  | none => .undecodable (codec.syntaxError body)
  | some (value, _) =>
    match codec.unmarshal value with
    | .error err => .undecodable err
    | .ok o => .object o

/-- The fields a decoded object sets in a fresh `model.User`: a key that is
present sets its field, every other field keeps the zero value of its type. -/
def Object.fields (o : Object) : User :=
  { ID := o.id.getD 0
    FirstName := o.first_name.getD ""
    LastName := o.last_name.getD ""
    DateOfBirth := o.date_of_birth.getD Time.zero
    Ethnicity := o.ethnicity.getD ""
    Role := o.role.getD ""
    CreatedAt := o.CreatedAt.getD Time.zero
    UpdatedAt := o.UpdatedAt.getD Time.zero }

/-- The largest value of a Go `uint`, which has 64 bits here. -/
def maxUint : Nat := 2 ^ 64 - 1

/-- The storing of a decoded object into a fresh `model.User`: a number that
does not fit the 64 bits of `uint` is an error of the decoder. -/
def decode (o : Object) : Except String User :=
  if maxUint < o.id.getD 0 then
    .error ("json: cannot unmarshal number " ++ toString (o.id.getD 0) ++
      " into Go struct field User.id of type uint")
  else
    .ok o.fields

/-- The checks of the tag `binding:"required,min=1"` on `FirstName`
(model.go, line 11), the only field of `model.User` with a `binding` tag:
`required` rejects the zero value, `min=1` a string of fewer than one
character.  The message is the validator's. -/
def validate (u : User) : Except String Unit :=
  if u.FirstName = "" then
    .error "Key: 'User.FirstName' Error:Field validation for 'FirstName' failed on the 'required' tag"
  else if u.FirstName.length < 1 then
    .error "Key: 'User.FirstName' Error:Field validation for 'FirstName' failed on the 'min' tag"
  else
    .ok ()

/-- The call `c.ShouldBindJSON(&input)` with `input` a `model.User`: decode the
first JSON value of the body into it, then run the checks of the `binding`
tags. -/
def ShouldBindJSON (codec : Codec) (body : String) : Except String User :=
  match Decode codec body with
  | .undecodable err => .error err
  | .object o =>
    match decode o with
    | .error err => .error err
    | .ok input =>
      match validate input with
      | .error err => .error err
      | .ok _ => .ok input

/-! ## gorm over SQLite -/

/-- The largest key of an SQLite table: keys are signed 64-bit integers. -/
def maxRowid : Nat := 2 ^ 63 - 1

/-- The key SQLite holds for an identifier gorm binds as a `uint`: the driver
hands the 64 bits over as a signed integer, so identifiers above `maxRowid`
are kept under negative keys. -/
def rowid (id : Nat) : Int :=
  if id ≤ maxRowid then (id : Int) else (id : Int) - 2 ^ 64

/-- The largest key among the rows that is not negative, `0` for a table
without one. -/
def maxID (rows : List User) : Nat :=
  rows.foldr (fun r m => if r.ID ≤ maxRowid then max r.ID m else m) 0

/-- A row put into the table at the place of its key: before the first row of
a larger key. -/
def insertRow (r : User) : List User → List User
  | [] => [r]
  | a :: rest => if rowid r.ID < rowid a.ID then r :: a :: rest else a :: insertRow r rest

/-- The call `model.DB.Find(&users)`, as the value of `users` afterwards: gorm
puts a fresh empty slice in place of what `users` held, the nil slice too, and
appends every row of the table to it. -/
def DB.Find (db : DB) (_users : Slice) : Slice :=
  some db.users

/-- The call `model.DB.Where("id = ?", id).First(&user)`: the first row whose
key equals the bound text.  The comparison is the store's: `key` gives, for
the text, the identifier gorm reads from a row of the key the text equals,
and `none` for a text that equals no key.  `none` is gorm's record-not-found
error. -/
def DB.First (key : String → Option Nat) (db : DB) (id : String) : Option User :=
  db.users.find? (fun r => key id == some r.ID)

/-- The call `model.DB.Create(&user)`: gorm fills the zero timestamps with the
current time.  A zero `ID` is left to AUTOINCREMENT, which picks one more than
the largest key the table holds or has handed out, and gorm writes it back
into `user`; when that largest key is `maxRowid` the insert fails, the table
is unchanged and `user` keeps its zero `ID`.  A non-zero `ID` is inserted as
it is unless a row has it already (the insert fails, the table is
unchanged). -/
def DB.Create (now : Time) (db : DB) (user : User) : DB × User :=
  let stamped : User :=
    { user with
      CreatedAt := if user.CreatedAt = Time.zero then now else user.CreatedAt
      UpdatedAt := if user.UpdatedAt = Time.zero then now else user.UpdatedAt }
  if user.ID = 0 then
    let top := max db.seq (maxID db.users)
    if maxRowid ≤ top then
      (db, stamped)
    else
      let row : User := { stamped with ID := top + 1 }
      ({ users := db.users ++ [row], seq := top + 1 }, row)
  else if db.users.any (fun r => r.ID == user.ID) then
    (db, stamped)
  else
    ({ users := insertRow stamped db.users, seq := max db.seq (maxID [stamped]) }, stamped)

/-- The assignments `Updates(input)` builds from a struct: every column whose
field of `input` is not the zero value of its type is set to that value, the
primary key among them, and `updated_at` is always set to the current time. -/
def assign (now : Time) (input : User) (r : User) : User :=
  { ID := if input.ID = 0 then r.ID else input.ID
    FirstName := if input.FirstName = "" then r.FirstName else input.FirstName
    LastName := if input.LastName = "" then r.LastName else input.LastName
    DateOfBirth := if input.DateOfBirth = Time.zero then r.DateOfBirth else input.DateOfBirth
    Ethnicity := if input.Ethnicity = "" then r.Ethnicity else input.Ethnicity
    Role := if input.Role = "" then r.Role else input.Role
    CreatedAt := if input.CreatedAt = Time.zero then r.CreatedAt else input.CreatedAt
    UpdatedAt := now }

/-- The call `model.DB.Model(&user).Updates(input)`.  gorm writes the
assignments into `user` first and then runs
`UPDATE users SET ... WHERE id = <the ID user had>`.  The statement changes
nothing when `user` has a zero `ID` (gorm refuses an update without a
condition) or when it would move the row onto a key another row holds (the
primary key rejects it).  The handler does not look at either error.  A row
whose key is not changed keeps its place in the table; a row whose key is
changed goes to the place of its new key. -/
def DB.Updates (now : Time) (db : DB) (user input : User) : DB × User :=
  let updated := assign now input user
  if user.ID = 0 then
    (db, updated)
  else if updated.ID ≠ user.ID ∧ db.users.any (fun r => r.ID == updated.ID) then
    (db, updated)
  else if updated.ID = user.ID then
    ({ db with users := db.users.map (fun r => if r.ID = user.ID then assign now input r else r) },
      updated)
  else
    ({ db with
        users := ((db.users.filter (fun r => r.ID == user.ID)).map (assign now input)).foldr
          insertRow (db.users.filter (fun r => r.ID != user.ID)) },
      updated)

/-- The call `model.DB.Delete(&user)`:
`DELETE FROM users WHERE id = <user.ID>`; with a zero `ID` gorm refuses the
delete (there is no condition) and the table is unchanged. -/
def DB.Delete (db : DB) (user : User) : DB :=
  if user.ID = 0 then db
  else { db with users := db.users.filter (fun r => r.ID != user.ID) }

/-- The primary key of table `users`: identifiers are non-zero (AUTOINCREMENT
starts at one) and no two rows share one. -/
def DB.Valid (db : DB) : Prop :=
  (∀ r ∈ db.users, r.ID ≠ 0) ∧ db.users.Pairwise (fun a b => a.ID ≠ b.ID)

instance (db : DB) : Decidable db.Valid := by
  unfold DB.Valid
  infer_instance

/-- The table in the order of SQLite: every identifier is a `uint` and the
rows are listed by ascending key. -/
def DB.Ordered (db : DB) : Prop :=
  (∀ r ∈ db.users, r.ID ≤ maxUint) ∧ db.users.Pairwise (fun a b => rowid a.ID < rowid b.ID)

/-! ## controller/controller.go -/

/-- GetUsers returns all users (controller.go, lines 9-14). -/
def GetUsers (db : DB) : Response × DB :=
  let users : Slice := none
  let users := db.Find users
  (JSON StatusOK [("data", .ofSlice users)], db)

/-- GetUser returns a single user by id (controller.go, lines 17-24). -/
def GetUser (key : String → Option Nat) (db : DB) (id : String) : Response × DB :=
  match db.First key id with
  | none => (JSON StatusNotFound [("error", .string "User not found")], db)
  | some user => (JSON StatusOK [("data", .object user)], db)

/-- CreateUser creates a new user (controller.go, lines 27-44). -/
def CreateUser (codec : Codec) (now : Time) (db : DB) (body : String) : Response × DB :=
  match ShouldBindJSON codec body with
  | .error err => (JSON StatusBadRequest [("error", .string err)], db)
  | .ok input =>
    let user : User :=
      { ID := 0
        FirstName := input.FirstName
        LastName := input.LastName
        DateOfBirth := input.DateOfBirth
        Ethnicity := input.Ethnicity
        Role := input.Role
        CreatedAt := Time.zero
        UpdatedAt := Time.zero }
    let (db, user) := db.Create now user
    (JSON StatusCreated [("data", .object user)], db)

/-- UpdateUser updates a user by id (controller.go, lines 47-62). -/
def UpdateUser (codec : Codec) (key : String → Option Nat) (now : Time) (db : DB)
    (id : String) (body : String) : Response × DB :=
  match db.First key id with
  | none => (JSON StatusNotFound [("error", .string "User not found")], db)
  | some user =>
    match ShouldBindJSON codec body with
    | .error err => (JSON StatusBadRequest [("error", .string err)], db)
    | .ok input =>
      let (db, user) := db.Updates now user input
      (JSON StatusOK [("data", .object user)], db)

/-- DeleteUser deletes a user by id (controller.go, lines 65-74). -/
def DeleteUser (key : String → Option Nat) (db : DB) (id : String) : Response × DB :=
  match db.First key id with
  | none => (JSON StatusNotFound [("error", .string "User not found")], db)
  | some user =>
    let db := db.Delete user
    (JSON StatusOK [("data", .string "User deleted successfully")], db)

/-! ## Concrete inputs -/

/-- The store's reading of a path segment that is a string of decimal digits:
the number it spells, when that is a key.  Other spellings of a number, which
the store reads too, do not occur in the requests below. -/
def decimal (s : String) : Option Nat :=
  if s.data.all Char.isDigit ∧ s.data ≠ [] ∧
      s.data.foldl (fun n c => 10 * n + (c.toNat - 48)) 0 ≤ maxRowid then
    some (s.data.foldl (fun n c => 10 * n + (c.toNat - 48)) 0)
  else none

/-- The time of the requests below, with the local location. -/
def clock : Time := { instant := 63800000000, loc := 1 }

/-- The stored record of the update test, with the identifier the store gave
it; instants are in seconds after Go's zero time. -/
def bob : User :=
  { ID := 1, FirstName := "Bob", LastName := "Johnson",
    DateOfBirth := { instant := 62293363200, loc := 0 },
    Ethnicity := "African American", Role := "Nurse",
    CreatedAt := { instant := 63790000000, loc := 1 },
    UpdatedAt := { instant := 63790000000, loc := 1 } }

def db1 : DB := { users := [bob], seq := 1 }

/-- The JSON object without keys. -/
def noKeys : Object :=
  { id := none, first_name := none, last_name := none, date_of_birth := none,
    ethnicity := none, role := none, CreatedAt := none, UpdatedAt := none }

/-- The payload of the create test, as `json.Marshal` writes the struct: the
identifier and the two timestamps are present with their zero values. -/
def johnDoe : Object :=
  { id := some 0, first_name := some "John", last_name := some "Doe",
    date_of_birth := some { instant := 62766748800, loc := 0 },
    ethnicity := some "Caucasian", role := some "Patient",
    CreatedAt := some Time.zero, UpdatedAt := some Time.zero }

def firstNameRobert : Object := { noKeys with first_name := some "Robert" }

def lastNameSmith : Object := { noKeys with last_name := some "Smith" }

def idTwoRobert : Object := { noKeys with id := some 2, first_name := some "Robert" }

def idMaxBob : Object := { noKeys with id := some 9223372036854775807, first_name := some "Bob" }

def idBeyondUint : Object :=
  { noKeys with id := some 18446744073709551616, first_name := some "Robert" }

def emptyFirstName : Object := { noKeys with first_name := some "" }

/-- The body of the create test. -/
def bodyJohnDoe : String :=
  "\x7b\"id\":0,\"first_name\":\"John\",\"last_name\":\"Doe\",\"date_of_birth\":\"1990-01-01T00:00:00Z\",\"ethnicity\":\"Caucasian\",\"role\":\"Patient\",\"CreatedAt\":\"0001-01-01T00:00:00Z\",\"UpdatedAt\":\"0001-01-01T00:00:00Z\"\x7d"

/-- The body of the test for an empty required key. -/
def bodyEmptyFirstName : String := "\x7b\"first_name\":\"\"\x7d"

/-- The body that holds a new first name and nothing else. -/
def bodyFirstNameRobert : String := "\x7b\"first_name\":\"Robert\"\x7d"

/-- The body that holds a last name and nothing else. -/
def bodyLastNameSmith : String := "\x7b\"last_name\":\"Smith\"\x7d"

/-- The body that holds an identifier next to a new first name. -/
def bodyIdTwoRobert : String := "\x7b\"id\":2,\"first_name\":\"Robert\"\x7d"

/-- The body that holds the largest key as identifier next to the first name
the record has. -/
def bodyIdMaxBob : String := "\x7b\"id\":9223372036854775807,\"first_name\":\"Bob\"\x7d"

/-- The body that holds an identifier of 65 bits next to a new first name. -/
def bodyIdBeyondUint : String :=
  "\x7b\"id\":18446744073709551616,\"first_name\":\"Robert\"\x7d"

/-- The body `bodyFirstNameRobert` with one more closing brace after it. -/
def bodyTrailingBrace : String := "\x7b\"first_name\":\"Robert\"\x7d\x7d"

/-- The body of the test for invalid JSON. -/
def bodyInvalid : String := "\x7binvalid json\x7d"

/-- The codec on the JSON values of the bodies above: each with the object
`encoding/json` reads from it, and the message of the syntax error of
`bodyInvalid`. -/
def fixtures : Codec :=
  { syntaxError := fun _ =>
      "invalid character 'i' looking for beginning of object key string"
    unmarshal := fun value =>
      match [(bodyJohnDoe, johnDoe), (bodyEmptyFirstName, emptyFirstName),
          (bodyFirstNameRobert, firstNameRobert), (bodyLastNameSmith, lastNameSmith),
          (bodyIdTwoRobert, idTwoRobert), (bodyIdMaxBob, idMaxBob),
          (bodyIdBeyondUint, idBeyondUint)].lookup value with
      | some o => .ok o
      | none => .error "json: cannot unmarshal" }

/-- The store after the update request on identifier 1 with the body
`bodyIdMaxBob`: its one record sits under the largest key. -/
def dbFull : DB := (UpdateUser fixtures decimal clock db1 "1" bodyIdMaxBob).2

/-! ## Lookup by identifier -/

theorem first_eq_none (key : String → Option Nat) (db : DB) (id : String)
    (h : ∀ r ∈ db.users, key id ≠ some r.ID) : db.First key id = none := by
  unfold DB.First
  rw [List.find?_eq_none]
  intro r hr
  simpa using h r hr

theorem first_some_mem (key : String → Option Nat) (db : DB) (id : String) (u : User)
    (h : db.First key id = some u) : u ∈ db.users ∧ key id = some u.ID := by
  unfold DB.First at h
  exact ⟨List.mem_of_find?_eq_some h, by simpa using List.find?_some h⟩

theorem first_exists (key : String → Option Nat) (db : DB) (id : String) (u : User)
    (hu : u ∈ db.users) (hid : key id = some u.ID) :
    ∃ v, db.First key id = some v ∧ v ∈ db.users ∧ v.ID = u.ID := by
  cases hf : db.First key id with
  | none =>
    unfold DB.First at hf
    rw [List.find?_eq_none] at hf
    have := hf u hu
    simp [hid] at this
  | some v =>
    obtain ⟨hv, hk⟩ := first_some_mem key db id v hf
    refine ⟨v, rfl, hv, ?_⟩
    rw [hid] at hk
    exact (Option.some.inj hk).symm

theorem eq_of_id_eq (rows : List User) (h : rows.Pairwise (fun a b => a.ID ≠ b.ID))
    (u v : User) (hu : u ∈ rows) (hv : v ∈ rows) (hid : v.ID = u.ID) : v = u := by
  induction rows with
  | nil => cases hu
  | cons r rs ih =>
    rw [List.pairwise_cons] at h
    rcases List.mem_cons.mp hu with rfl | hu1
    · rcases List.mem_cons.mp hv with rfl | hv1
      · rfl
      · exact absurd hid.symm (h.1 v hv1)
    · rcases List.mem_cons.mp hv with rfl | hv1
      · exact absurd hid (h.1 u hu1)
      · exact ih h.2 hu1 hv1

theorem first_of_mem (key : String → Option Nat) (db : DB) (id : String) (u : User)
    (hu : u ∈ db.users) (hid : key id = some u.ID)
    (h : db.users.Pairwise (fun a b => a.ID ≠ b.ID)) : db.First key id = some u := by
  obtain ⟨v, hf, hv, hvid⟩ := first_exists key db id u hu hid
  rw [hf, eq_of_id_eq db.users h u v hu hv hvid]

/-! ## The primary key is kept by every store operation -/

theorem le_maxID (rows : List User) (r : User) (hr : r ∈ rows) (hk : r.ID ≤ maxRowid) :
    r.ID ≤ maxID rows := by
  induction rows with
  | nil => cases hr
  | cons a rs ih =>
    simp only [maxID, List.foldr_cons]
    rcases List.mem_cons.mp hr with rfl | h
    · rw [if_pos hk]
      exact le_max_left _ _
    · have := ih h
      simp only [maxID] at this
      split_ifs
      · exact le_trans this (le_max_right _ _)
      · exact this

theorem insertRow_perm (r : User) (rows : List User) : (insertRow r rows).Perm (r :: rows) := by
  induction rows with
  | nil => exact List.Perm.refl _
  | cons a rs ih =>
    simp only [insertRow]
    split_ifs
    · exact List.Perm.refl _
    · exact (List.Perm.cons a ih).trans (List.Perm.swap r a rs)

theorem foldr_insertRow_perm (moved rows : List User) :
    (moved.foldr insertRow rows).Perm (moved ++ rows) := by
  induction moved with
  | nil => exact List.Perm.refl _
  | cons a ms ih =>
    simp only [List.foldr_cons, List.cons_append]
    exact (insertRow_perm a _).trans (List.Perm.cons a ih)

theorem rows_perm (l₁ l₂ : List User) (h : l₁.Perm l₂) (h0 : ∀ r ∈ l₂, r.ID ≠ 0)
    (hp : l₂.Pairwise (fun a b => a.ID ≠ b.ID)) :
    (∀ r ∈ l₁, r.ID ≠ 0) ∧ l₁.Pairwise (fun a b => a.ID ≠ b.ID) :=
  ⟨fun r hr => h0 r (h.mem_iff.mp hr), (h.pairwise_iff (fun hab => Ne.symm hab)).mpr hp⟩

theorem valid_empty (seq : Nat) : DB.Valid { users := [], seq := seq } := by
  simp [DB.Valid]

theorem create_valid (now : Time) (db : DB) (user : User) (hv : db.Valid) :
    (db.Create now user).1.Valid := by
  obtain ⟨h0, hp⟩ := hv
  unfold DB.Create
  by_cases hz : user.ID = 0
  · simp only [hz, if_true]
    by_cases hfull : maxRowid ≤ max db.seq (maxID db.users)
    · rw [if_pos hfull]
      exact ⟨h0, hp⟩
    · rw [if_neg hfull]
      refine ⟨?_, ?_⟩
      · intro r hr
        rcases List.mem_append.mp hr with h | h
        · exact h0 r h
        · rw [List.mem_singleton.mp h]
          simp
      · rw [List.pairwise_append]
        refine ⟨hp, List.pairwise_singleton _ _, ?_⟩
        intro a ha b hb
        rw [List.mem_singleton.mp hb]
        simp only
        by_cases hk : a.ID ≤ maxRowid
        · have := le_maxID db.users a ha hk
          have := le_max_right db.seq (maxID db.users)
          omega
        · omega
  · simp only [hz, if_false]
    by_cases hc : (db.users.any fun r => r.ID == user.ID) = true
    · rw [if_pos hc]
      exact ⟨h0, hp⟩
    · rw [if_neg hc]
      refine rows_perm _ _ (insertRow_perm _ db.users) ?_ ?_
      · intro r hr
        rcases List.mem_cons.mp hr with h | h
        · rw [h]
          exact hz
        · exact h0 r h
      · rw [List.pairwise_cons]
        refine ⟨?_, hp⟩
        intro a ha heq
        apply hc
        rw [List.any_eq_true]
        exact ⟨a, ha, by simpa using heq.symm⟩

theorem updates_valid (now : Time) (db : DB) (user input : User) (hv : db.Valid) :
    (db.Updates now user input).1.Valid := by
  obtain ⟨h0, hp⟩ := hv
  unfold DB.Updates
  by_cases hz : user.ID = 0
  · simp only [hz, if_true]
    exact ⟨h0, hp⟩
  · simp only [hz, if_false]
    by_cases hc : (assign now input user).ID ≠ user.ID ∧
        (db.users.any fun r => r.ID == (assign now input user).ID) = true
    · rw [if_pos hc]
      exact ⟨h0, hp⟩
    · rw [if_neg hc]
      have hid : ∀ r : User, r.ID = user.ID →
          (assign now input r).ID = (assign now input user).ID := by
        intro r hr
        simp [assign, hr]
      by_cases hsame : (assign now input user).ID = user.ID
      · rw [if_pos hsame]
        refine ⟨?_, ?_⟩
        · intro r hr
          obtain ⟨a, ha, rfl⟩ := List.mem_map.mp hr
          by_cases hau : a.ID = user.ID
          · rw [if_pos hau, hid a hau, hsame]
            exact hz
          · rw [if_neg hau]
            exact h0 a ha
        · rw [List.pairwise_map]
          refine hp.imp ?_
          intro a b hab
          by_cases hau : a.ID = user.ID
          · have hbu : b.ID ≠ user.ID := fun h => hab (hau.trans h.symm)
            rw [if_pos hau, if_neg hbu, hid a hau, hsame]
            exact fun h => hbu h.symm
          · by_cases hbu : b.ID = user.ID
            · rw [if_neg hau, if_pos hbu, hid b hbu, hsame]
              exact hau
            · rw [if_neg hau, if_neg hbu]
              exact hab
      · rw [if_neg hsame]
        have hfresh : ∀ r ∈ db.users, r.ID ≠ (assign now input user).ID := by
          intro r hr heq
          apply hc
          refine ⟨hsame, ?_⟩
          rw [List.any_eq_true]
          exact ⟨r, hr, by simpa using heq⟩
        have hnew : (assign now input user).ID ≠ 0 := by
          by_cases hi : input.ID = 0
          · simp [assign, hi] at hsame
          · simp [assign, hi]
        refine rows_perm _ _ (foldr_insertRow_perm _ _) ?_ ?_
        · intro r hr
          rcases List.mem_append.mp hr with h | h
          · obtain ⟨a, ha, rfl⟩ := List.mem_map.mp h
            have hau : a.ID = user.ID := by simpa using (List.mem_filter.mp ha).2
            rw [hid a hau]
            exact hnew
          · exact h0 r (List.mem_filter.mp h).1
        · rw [List.pairwise_append]
          refine ⟨?_, hp.filter _, ?_⟩
          · rw [List.pairwise_map]
            refine (hp.filter _).imp_of_mem ?_
            intro a b ha hb hab
            have hau : a.ID = user.ID := by simpa using (List.mem_filter.mp ha).2
            have hbu : b.ID = user.ID := by simpa using (List.mem_filter.mp hb).2
            exact absurd (hau.trans hbu.symm) hab
          · intro a ha b hb
            obtain ⟨a', ha', rfl⟩ := List.mem_map.mp ha
            have hau : a'.ID = user.ID := by simpa using (List.mem_filter.mp ha').2
            rw [hid a' hau]
            exact fun h => hfresh b (List.mem_filter.mp hb).1 h.symm

theorem delete_valid (db : DB) (user : User) (hv : db.Valid) : (db.Delete user).Valid := by
  obtain ⟨h0, hp⟩ := hv
  unfold DB.Delete
  split_ifs
  · exact ⟨h0, hp⟩
  · exact ⟨fun r hr => h0 r (List.mem_filter.mp hr).1, hp.filter _⟩

/-- Every handler takes a store that satisfies the primary key to one that
does; together with `valid_empty` this makes `DB.Valid` an invariant of the
stores the service can reach from an empty table. -/
theorem handlers_valid (codec : Codec) (key : String → Option Nat) (now : Time) (db : DB)
    (id : String) (body : String) (hv : db.Valid) :
    (GetUsers db).2.Valid ∧ (GetUser key db id).2.Valid ∧
    (CreateUser codec now db body).2.Valid ∧
    (UpdateUser codec key now db id body).2.Valid ∧ (DeleteUser key db id).2.Valid := by
  refine ⟨hv, ?_, ?_, ?_, ?_⟩
  · unfold GetUser
    split <;> exact hv
  · unfold CreateUser
    split
    · exact hv
    · exact create_valid now db _ hv
  · unfold UpdateUser
    split
    · exact hv
    · split
      · exact hv
      · exact updates_valid now db _ _ hv
  · unfold DeleteUser
    split
    · exact hv
    · exact delete_valid db _ hv

/-! ## Reading the body -/

/-- What the decoder reads and what it leaves make up the body. -/
theorem readValueFrom_append (s : Scanner) (read cs value rest : List Char)
    (h : readValueFrom s read cs = some (value, rest)) : value ++ rest = read.reverse ++ cs := by
  induction cs generalizing s read with
  | nil =>
    simp only [readValueFrom] at h
    split_ifs at h
    simp only [Option.some.injEq, Prod.mk.injEq] at h
    rw [← h.1, ← h.2]
  | cons c cs ih =>
    simp only [readValueFrom] at h
    split at h
    · simp only [Option.some.injEq, Prod.mk.injEq] at h
      rw [← h.1, ← h.2]
    · split at h
      · simp only [Option.some.injEq, Prod.mk.injEq] at h
        rw [← h.1, ← h.2]
        simp
      · have := ih _ _ h
        simpa using this
    · split at h
      · simp only [Option.some.injEq, Prod.mk.injEq] at h
        rw [← h.1, ← h.2]
        simp
      · have := ih _ _ h
        simpa using this
    · cases h
    · have := ih _ _ h
      simpa using this

/-- A body from which no first value can be read is not valid JSON. -/
theorem not_valid_of_readValue_none (body : String) (h : readValue body = none) :
    Valid body = false := by
  simp [Valid, h]

theorem decode_undecodable (codec : Codec) (body : String) (h : readValue body = none) :
    Decode codec body = .undecodable (codec.syntaxError body) := by
  simp [Decode, h]

/-! ## Binding -/

theorem decode_ok (o : Object) (hr : o.id.getD 0 ≤ maxUint) : decode o = .ok o.fields := by
  unfold decode
  rw [if_neg (not_lt.mpr hr)]

theorem decode_error (o : Object) (hr : maxUint < o.id.getD 0) :
    ∃ err, decode o = .error err := by
  unfold decode
  rw [if_pos hr]
  exact ⟨_, rfl⟩

theorem bind_ok (codec : Codec) (body : String) (o : Object) (n : String)
    (hb : Decode codec body = .object o) (hr : o.id.getD 0 ≤ maxUint)
    (h1 : o.first_name = some n) (hn : n ≠ "") :
    ShouldBindJSON codec body = .ok o.fields := by
  have hd : o.fields.FirstName = n := by simp [Object.fields, h1]
  have hlen : ¬ n.length < 1 := by
    have : n.length ≠ 0 := fun h0 => hn (String.ext (List.length_eq_zero.mp h0))
    omega
  simp only [ShouldBindJSON, hb, decode_ok o hr, validate, hd, hn, hlen, if_false]

theorem bind_error_range (codec : Codec) (body : String) (o : Object)
    (hb : Decode codec body = .object o) (hr : maxUint < o.id.getD 0) :
    ∃ err, ShouldBindJSON codec body = .error err := by
  obtain ⟨err, he⟩ := decode_error o hr
  exact ⟨err, by simp only [ShouldBindJSON, hb, he]⟩

theorem bind_error_first_name (codec : Codec) (body : String) (o : Object)
    (hb : Decode codec body = .object o)
    (h : o.first_name = none ∨ o.first_name = some "") :
    ∃ err, ShouldBindJSON codec body = .error err := by
  have hd : o.fields.FirstName = "" := by
    rcases h with h | h <;> simp [Object.fields, h]
  by_cases hr : maxUint < o.id.getD 0
  · exact bind_error_range codec body o hb hr
  · refine ⟨"Key: 'User.FirstName' Error:Field validation for 'FirstName' failed on the 'required' tag", ?_⟩
    simp only [ShouldBindJSON, hb, decode_ok o (not_lt.mp hr), validate, hd, if_true]

theorem bind_error_undecodable (codec : Codec) (body : String) (err : String)
    (hb : Decode codec body = .undecodable err) :
    ShouldBindJSON codec body = .error err := by
  simp [ShouldBindJSON, hb]

/-- The binding succeeds exactly on a body whose first value decodes to an
object with an identifier of at most 64 bits and a non-empty first name. -/
theorem bind_ok_iff (codec : Codec) (body : String) :
    (∃ input, ShouldBindJSON codec body = .ok input) ↔
      ∃ o n, Decode codec body = .object o ∧ o.id.getD 0 ≤ maxUint ∧
        o.first_name = some n ∧ n ≠ "" := by
  constructor
  · rintro ⟨input, hi⟩
    cases hb : Decode codec body with
    | undecodable err =>
      rw [bind_error_undecodable codec body err hb] at hi
      cases hi
    | object o =>
      by_cases hr : maxUint < o.id.getD 0
      · obtain ⟨err, he⟩ := bind_error_range codec body o hb hr
        rw [he] at hi
        cases hi
      · cases hn : o.first_name with
        | none =>
          obtain ⟨err, he⟩ := bind_error_first_name codec body o hb (Or.inl hn)
          rw [he] at hi
          cases hi
        | some n =>
          by_cases hne : n = ""
          · obtain ⟨err, he⟩ := bind_error_first_name codec body o hb (Or.inr (hne ▸ hn))
            rw [he] at hi
            cases hi
          · exact ⟨o, n, rfl, not_lt.mp hr, hn, hne⟩
  · rintro ⟨o, n, hb, hr, h1, hn⟩
    exact ⟨_, bind_ok codec body o n hb hr h1 hn⟩

theorem updateUser_ok_fst (codec : Codec) (key : String → Option Nat) (now : Time) (db : DB)
    (id : String) (body : String) (v input : User) (hf : db.First key id = some v)
    (hb : ShouldBindJSON codec body = .ok input) :
    (UpdateUser codec key now db id body).1 =
      JSON StatusOK [("data", .object (assign now input v))] := by
  simp only [UpdateUser, hf, hb, DB.Updates]
  split_ifs <;> rfl

theorem updateUser_error (codec : Codec) (key : String → Option Nat) (now : Time) (db : DB)
    (id : String) (body : String) (v : User) (err : String) (hf : db.First key id = some v)
    (hb : ShouldBindJSON codec body = .error err) :
    UpdateUser codec key now db id body =
      (JSON StatusBadRequest [("error", .string err)], db) := by
  simp only [UpdateUser, hf, hb]

/-! ## The table stays in the order of its keys -/

theorem rowid_inj (a b : Nat) (ha : a ≤ maxUint) (hb : b ≤ maxUint) (h : rowid a = rowid b) :
    a = b := by
  unfold rowid at h
  simp only [maxRowid, maxUint] at *
  split_ifs at h <;> omega

theorem rowid_lt_new (a top : Nat) (ha : a ≤ maxUint) (htop : top < maxRowid)
    (h : a ≤ maxRowid → a ≤ top) : rowid a < rowid (top + 1) := by
  unfold rowid
  simp only [maxRowid, maxUint] at *
  split_ifs <;> omega

theorem insertRow_ordered (r : User) (rows : List User)
    (hp : rows.Pairwise (fun a b => rowid a.ID < rowid b.ID))
    (hne : ∀ a ∈ rows, rowid a.ID ≠ rowid r.ID) :
    (insertRow r rows).Pairwise (fun a b => rowid a.ID < rowid b.ID) := by
  induction rows with
  | nil => exact List.pairwise_singleton _ _
  | cons a rs ih =>
    rw [List.pairwise_cons] at hp
    simp only [insertRow]
    split_ifs with hlt
    · rw [List.pairwise_cons]
      refine ⟨?_, List.pairwise_cons.mpr hp⟩
      intro b hb
      rcases List.mem_cons.mp hb with rfl | hb
      · exact hlt
      · exact lt_trans hlt (hp.1 b hb)
    · rw [List.pairwise_cons]
      refine ⟨?_, ih hp.2 (fun b hb => hne b (List.mem_cons_of_mem a hb))⟩
      intro b hb
      rcases List.mem_cons.mp ((insertRow_perm r rs).mem_iff.mp hb) with rfl | hb
      · exact lt_of_le_of_ne (not_lt.mp hlt) (hne a (List.mem_cons_self a rs))
      · exact hp.1 b hb

theorem create_ordered (now : Time) (db : DB) (user : User) (hu : user.ID ≤ maxUint)
    (ho : db.Ordered) : (db.Create now user).1.Ordered := by
  obtain ⟨hb, hp⟩ := ho
  unfold DB.Create
  by_cases hz : user.ID = 0
  · simp only [hz, if_true]
    by_cases hfull : maxRowid ≤ max db.seq (maxID db.users)
    · rw [if_pos hfull]
      exact ⟨hb, hp⟩
    · rw [if_neg hfull]
      refine ⟨?_, ?_⟩
      · intro r hr
        rcases List.mem_append.mp hr with h | h
        · exact hb r h
        · rw [List.mem_singleton.mp h]
          simp only [maxRowid, maxUint] at *
          omega
      · rw [List.pairwise_append]
        refine ⟨hp, List.pairwise_singleton _ _, ?_⟩
        intro a ha b hb2
        rw [List.mem_singleton.mp hb2]
        refine rowid_lt_new a.ID _ (hb a ha) (not_le.mp hfull) ?_
        intro hk
        exact le_trans (le_maxID db.users a ha hk) (le_max_right _ _)
  · simp only [hz, if_false]
    by_cases hc : (db.users.any fun r => r.ID == user.ID) = true
    · rw [if_pos hc]
      exact ⟨hb, hp⟩
    · rw [if_neg hc]
      refine ⟨?_, ?_⟩
      · intro r hr
        rcases List.mem_cons.mp ((insertRow_perm _ db.users).mem_iff.mp hr) with h | h
        · rw [h]
          exact hu
        · exact hb r h
      · refine insertRow_ordered _ _ hp ?_
        intro a ha heq
        apply hc
        rw [List.any_eq_true]
        exact ⟨a, ha, by simpa using rowid_inj _ _ (hb a ha) hu heq⟩

theorem updates_ordered (now : Time) (db : DB) (user input : User) (hi : input.ID ≤ maxUint)
    (hu : user ∈ db.users) (ho : db.Ordered) : (db.Updates now user input).1.Ordered := by
  obtain ⟨hb, hp⟩ := ho
  have hid : ∀ r : User, r.ID = user.ID →
      (assign now input r).ID = (assign now input user).ID := by
    intro r hr
    simp [assign, hr]
  have hnewle : (assign now input user).ID ≤ maxUint := by
    by_cases h0 : input.ID = 0
    · simpa [assign, h0] using hb user hu
    · simpa [assign, h0] using hi
  unfold DB.Updates
  by_cases hz : user.ID = 0
  · simp only [hz, if_true]
    exact ⟨hb, hp⟩
  · simp only [hz, if_false]
    by_cases hc : (assign now input user).ID ≠ user.ID ∧
        (db.users.any fun r => r.ID == (assign now input user).ID) = true
    · rw [if_pos hc]
      exact ⟨hb, hp⟩
    · rw [if_neg hc]
      by_cases hsame : (assign now input user).ID = user.ID
      · rw [if_pos hsame]
        have hkeep : ∀ r : User,
            (if r.ID = user.ID then assign now input r else r).ID = r.ID := by
          intro r
          by_cases hru : r.ID = user.ID
          · rw [if_pos hru, hid r hru, hsame, hru]
          · rw [if_neg hru]
        refine ⟨?_, ?_⟩
        · intro r hr
          obtain ⟨a, ha, rfl⟩ := List.mem_map.mp hr
          rw [hkeep a]
          exact hb a ha
        · rw [List.pairwise_map]
          refine hp.imp ?_
          intro a b hab
          rw [hkeep a, hkeep b]
          exact hab
      · rw [if_neg hsame]
        have hfresh : ∀ r ∈ db.users, r.ID ≠ (assign now input user).ID := by
          intro r hr heq
          apply hc
          refine ⟨hsame, ?_⟩
          rw [List.any_eq_true]
          exact ⟨r, hr, by simpa using heq⟩
        have hone : db.users.filter (fun r => r.ID == user.ID) = [user] := by
          have hnd : db.users.Pairwise (fun a b => a.ID ≠ b.ID) :=
            hp.imp_of_mem (fun ha hb2 hab heq => absurd (heq ▸ hab) (lt_irrefl _))
          have hmem : ∀ r ∈ db.users.filter (fun r => r.ID == user.ID), r = user := by
            intro r hr
            have hru : r.ID = user.ID := by simpa using (List.mem_filter.mp hr).2
            exact eq_of_id_eq db.users hnd user r hu (List.mem_filter.mp hr).1 hru
          have hin : user ∈ db.users.filter (fun r => r.ID == user.ID) :=
            List.mem_filter.mpr ⟨hu, by simp⟩
          have hpf := hnd.filter (fun r => r.ID == user.ID)
          cases hl : db.users.filter (fun r => r.ID == user.ID) with
          | nil => rw [hl] at hin; cases hin
          | cons x xs =>
            rw [hl] at hmem hpf
            have hx : x = user := hmem x (List.mem_cons_self x xs)
            cases xs with
            | nil => rw [hx]
            | cons y ys =>
              have hy : y = user := hmem y (List.mem_cons_of_mem x (List.mem_cons_self y ys))
              rw [List.pairwise_cons] at hpf
              exact absurd (by rw [hx, hy]) (hpf.1 y (List.mem_cons_self y ys))
        rw [hone]
        simp only [List.map_cons, List.map_nil, List.foldr_cons, List.foldr_nil]
        refine ⟨?_, ?_⟩
        · intro r hr
          rcases List.mem_cons.mp ((insertRow_perm _ _).mem_iff.mp hr) with h | h
          · rw [h]
            exact hnewle
          · exact hb r (List.mem_filter.mp h).1
        · refine insertRow_ordered _ _ (hp.filter _) ?_
          intro a ha heq
          have ham := (List.mem_filter.mp ha).1
          exact hfresh a ham (rowid_inj _ _ (hb a ham) hnewle heq)

theorem delete_ordered (db : DB) (user : User) (ho : db.Ordered) : (db.Delete user).Ordered := by
  obtain ⟨hb, hp⟩ := ho
  unfold DB.Delete
  split_ifs
  · exact ⟨hb, hp⟩
  · exact ⟨fun r hr => hb r (List.mem_filter.mp hr).1, hp.filter _⟩

theorem bind_id_le (codec : Codec) (body : String) (input : User)
    (h : ShouldBindJSON codec body = .ok input) : input.ID ≤ maxUint := by
  obtain ⟨o, n, hb, hr, h1, hn⟩ := (bind_ok_iff codec body).mp ⟨input, h⟩
  rw [bind_ok codec body o n hb hr h1 hn] at h
  cases h
  exact hr

/-- Every handler takes a table that is in the order of its keys to one that
is: what GetUsers lists is listed by ascending key in every store the service
can reach from an empty table. -/
theorem handlers_ordered (codec : Codec) (key : String → Option Nat) (now : Time) (db : DB)
    (id : String) (body : String) (ho : db.Ordered) :
    DB.Ordered { users := [], seq := db.seq } ∧
    (GetUsers db).2.Ordered ∧ (GetUser key db id).2.Ordered ∧
    (CreateUser codec now db body).2.Ordered ∧
    (UpdateUser codec key now db id body).2.Ordered ∧ (DeleteUser key db id).2.Ordered := by
  refine ⟨by simp [DB.Ordered], ho, ?_, ?_, ?_, ?_⟩
  · unfold GetUser
    split <;> exact ho
  · unfold CreateUser
    split
    · exact ho
    · exact create_ordered now db _ (Nat.zero_le _) ho
  · unfold UpdateUser
    split
    · exact ho
    · rename_i user hf
      split
      · exact ho
      · rename_i input hs
        exact updates_ordered now db user input (bind_id_le codec body input hs)
          (first_some_mem key db id user hf).1 ho
  · unfold DeleteUser
    split
    · exact ho
    · exact delete_ordered db _ ho

/-- The identifier survives an update whose body carries no id, a zero id or
the id the record already has: the response record and every row keep their
identifiers. -/
theorem updateUser_id_kept (codec : Codec) (key : String → Option Nat) (now : Time) (db : DB)
    (id : String) (u : User) (body : String) (o : Object) (n : String)
    (hv : db.Valid) (hu : u ∈ db.users) (hid : key id = some u.ID)
    (hb : Decode codec body = .object o) (hr : o.id.getD 0 ≤ maxUint)
    (h1 : o.first_name = some n) (hn : n ≠ "")
    (h0 : o.id = none ∨ o.id = some 0 ∨ o.id = some u.ID) :
    ∃ user, (UpdateUser codec key now db id body).1 = JSON StatusOK [("data", .object user)] ∧
      user.ID = u.ID ∧
      (UpdateUser codec key now db id body).2.users.map (fun r => r.ID) =
        db.users.map (fun r => r.ID) := by
  have hf := first_of_mem key db id u hu hid hv.2
  have hs := bind_ok codec body o n hb hr h1 hn
  have hz : o.fields.ID = 0 ∨ o.fields.ID = u.ID := by
    rcases h0 with h | h | h <;> simp [Object.fields, h]
  have hk : ∀ r : User, r.ID = u.ID → (assign now o.fields r).ID = r.ID := by
    intro r hr
    rcases hz with h | h <;> simp [assign, h, hr]
  refine ⟨assign now o.fields u,
    updateUser_ok_fst codec key now db id body u o.fields hf hs, hk u rfl, ?_⟩
  have hne : u.ID ≠ 0 := hv.1 u hu
  simp only [UpdateUser, hf, hs, DB.Updates, hne, hk u rfl, if_false, if_true, ne_eq,
    not_true_eq_false, false_and, List.map_map]
  apply List.map_congr_left
  intro r _
  by_cases hru : r.ID = u.ID
  · simp [hru, hk r hru]
  · simp [hru]

/-- An identifier that does not fit a `uint` is an error of the decoder: the
update request is answered with 400 and the store is unchanged, although the
body is valid JSON and holds a non-empty first name. -/
theorem updateUser_id_beyond_uint_rejected :
    Valid bodyIdBeyondUint = true ∧
    (UpdateUser fixtures decimal clock db1 "1" bodyIdBeyondUint).1.Code = 400 ∧
    (UpdateUser fixtures decimal clock db1 "1" bodyIdBeyondUint).2 = db1 := by
  decide

/-! ## GetUsers -/

/-- C10: GetUsers always responds 200 with "data" holding the array of exactly
the stored records and leaves the store as it is; on an empty table the value
under "data" is the empty array, which is not null. -/
theorem getUsers_data (db : DB) (seq : Nat) :
    GetUsers db = (JSON StatusOK [("data", .array db.users)], db) ∧
    (GetUsers db).1.Code = 200 ∧
    (GetUsers { users := [], seq := seq }).1 = JSON StatusOK [("data", .array [])] ∧
    (GetUsers { users := [], seq := seq }).1.Body.lookup "data" = some (.array []) ∧
    (GetUsers db).1.Body.lookup "data" ≠ some .null ∧
    (GetUsers db).1.Body.lookup "data" ≠ none := by
  refine ⟨rfl, rfl, rfl, ?_, ?_, ?_⟩ <;>
    simp [GetUsers, JSON, DB.Find, Value.ofSlice, List.lookup]

/-! ## GetUser -/

/-- C9: when a stored record has the identifier of the request, GetUser
responds 200 with "data" a stored record of that identifier, which is that
very record when identifiers are unique, and the store is unchanged. -/
theorem getUser_found (key : String → Option Nat) (db : DB) (id : String) (u : User)
    (hu : u ∈ db.users) (hid : key id = some u.ID) :
    ∃ v, GetUser key db id = (JSON StatusOK [("data", .object v)], db) ∧
      (GetUser key db id).1.Code = 200 ∧
      v ∈ db.users ∧ v.ID = u.ID ∧
      (db.users.Pairwise (fun a b => a.ID ≠ b.ID) → v = u) := by
  obtain ⟨v, hf, hv, hvid⟩ := first_exists key db id u hu hid
  refine ⟨v, ?_, ?_, hv, hvid, fun h => eq_of_id_eq db.users h u v hu hv hvid⟩
  · simp [GetUser, hf]
  · simp [GetUser, hf, JSON, StatusOK]

theorem getUser_found_witness :
    ∃ v, GetUser decimal db1 "1" = (JSON StatusOK [("data", .object v)], db1) ∧
      (GetUser decimal db1 "1").1.Code = 200 ∧
      v ∈ db1.users ∧ v.ID = bob.ID ∧
      (db1.users.Pairwise (fun a b => a.ID ≠ b.ID) → v = bob) :=
  getUser_found decimal db1 "1" bob (by decide) (by decide)

/-- C3: when no stored record has the identifier of the request, GetUser and
DeleteUser each respond 404 with the body {"error": "User not found"} and the
store is unchanged. -/
theorem getUser_deleteUser_not_found (key : String → Option Nat) (db : DB) (id : String)
    (h : ∀ r ∈ db.users, key id ≠ some r.ID) :
    GetUser key db id = (JSON StatusNotFound [("error", .string "User not found")], db) ∧
    DeleteUser key db id = (JSON StatusNotFound [("error", .string "User not found")], db) ∧
    (JSON StatusNotFound [("error", .string "User not found")]).Code = 404 := by
  have hf := first_eq_none key db id h
  refine ⟨?_, ?_, rfl⟩
  · simp [GetUser, hf]
  · simp [DeleteUser, hf]

theorem getUser_deleteUser_not_found_witness :
    GetUser decimal db1 "999" = (JSON StatusNotFound [("error", .string "User not found")], db1) ∧
    DeleteUser decimal db1 "999" = (JSON StatusNotFound [("error", .string "User not found")], db1) ∧
    (JSON StatusNotFound [("error", .string "User not found")]).Code = 404 :=
  getUser_deleteUser_not_found decimal db1 "999" (by decide)

/-! ## CreateUser -/

/-- C1: a create request whose body has an empty or missing first_name is
answered with 400 and a body holding only the key "error"; the store, and so
what GetUsers lists, is the same as before. -/
theorem createUser_first_name_required (codec : Codec) (now : Time) (db : DB) (body : String)
    (o : Object) (hb : Decode codec body = .object o)
    (h : o.first_name = none ∨ o.first_name = some "") :
    (CreateUser codec now db body).1.Code = 400 ∧
    (∃ err, (CreateUser codec now db body).1.Body = [("error", .string err)]) ∧
    (CreateUser codec now db body).2 = db ∧
    (GetUsers (CreateUser codec now db body).2).1 = (GetUsers db).1 ∧
    (CreateUser codec now db body).2.users.length = db.users.length := by
  obtain ⟨err, he⟩ := bind_error_first_name codec body o hb h
  have hc : CreateUser codec now db body =
      (JSON StatusBadRequest [("error", .string err)], db) := by
    simp only [CreateUser, he]
  rw [hc]
  exact ⟨rfl, ⟨_, rfl⟩, rfl, rfl, rfl⟩

theorem createUser_first_name_required_witness :
    (CreateUser fixtures clock db1 bodyEmptyFirstName).1.Code = 400 ∧
    (∃ err, (CreateUser fixtures clock db1 bodyEmptyFirstName).1.Body =
      [("error", .string err)]) ∧
    (CreateUser fixtures clock db1 bodyEmptyFirstName).2 = db1 ∧
    (GetUsers (CreateUser fixtures clock db1 bodyEmptyFirstName).2).1 = (GetUsers db1).1 ∧
    (CreateUser fixtures clock db1 bodyEmptyFirstName).2.users.length = db1.users.length :=
  createUser_first_name_required fixtures clock db1 bodyEmptyFirstName emptyFirstName
    (by decide) (Or.inr rfl)

/-- C2, as the claim states it, fails: on the store an update has left with
its one record under the largest key, which satisfies the primary key, the
payload of the create test is answered with 201 and a record of identifier 0,
and the store afterwards is the store before: nothing was stored. -/
theorem createUser_full_store_zero_id :
    dbFull =
      { users := [{ bob with ID := 9223372036854775807, UpdatedAt := clock }],
        seq := 1 } ∧
    dbFull.Valid ∧ Valid bodyJohnDoe = true ∧
    Decode fixtures bodyJohnDoe = .object johnDoe ∧
    johnDoe.first_name = some "John" ∧
    CreateUser fixtures clock dbFull bodyJohnDoe =
      (JSON StatusCreated [("data", .object
        { ID := 0, FirstName := "John", LastName := "Doe",
          DateOfBirth := { instant := 62766748800, loc := 0 },
          Ethnicity := "Caucasian", Role := "Patient",
          CreatedAt := clock, UpdatedAt := clock })], dbFull) ∧
    (CreateUser fixtures clock dbFull bodyJohnDoe).1.Code = 201 ∧
    (CreateUser fixtures clock dbFull bodyJohnDoe).2 = dbFull := by
  decide

/-- C2, amended: on a store whose keys, those of its rows and those it has
handed out, are all below the largest key, a create request whose body
decodes to an object with a non-empty first_name (and an id, if any, within
64 bits) is answered with 201 and a "data" record whose identifier is
non-zero (and held by no earlier row) and whose first name, last name, date of
birth, ethnicity and role are the submitted values; that record is appended
to the store. -/
theorem createUser_created (codec : Codec) (now : Time) (db : DB) (body : String) (o : Object)
    (n : String) (hb : Decode codec body = .object o) (hr : o.id.getD 0 ≤ maxUint)
    (h1 : o.first_name = some n) (hn : n ≠ "")
    (hfull : max db.seq (maxID db.users) < maxRowid) :
    ∃ user, CreateUser codec now db body =
        (JSON StatusCreated [("data", .object user)],
          { users := db.users ++ [user], seq := user.ID }) ∧
      (CreateUser codec now db body).1.Code = 201 ∧
      user.ID ≠ 0 ∧ (∀ r ∈ db.users, r.ID ≠ user.ID) ∧
      user.FirstName = n ∧
      user.LastName = o.last_name.getD "" ∧
      user.DateOfBirth = o.date_of_birth.getD Time.zero ∧
      user.Ethnicity = o.ethnicity.getD "" ∧
      user.Role = o.role.getD "" ∧
      user ∈ (CreateUser codec now db body).2.users := by
  have hs := bind_ok codec body o n hb hr h1 hn
  have hd : o.fields.FirstName = n := by simp [Object.fields, h1]
  have hnf : ¬ maxRowid ≤ max db.seq (maxID db.users) := not_le.mpr hfull
  have hc : CreateUser codec now db body =
      (JSON StatusCreated [("data", .object
        { ID := max db.seq (maxID db.users) + 1, FirstName := n,
          LastName := o.last_name.getD "", DateOfBirth := o.date_of_birth.getD Time.zero,
          Ethnicity := o.ethnicity.getD "", Role := o.role.getD "",
          CreatedAt := now, UpdatedAt := now })],
        { users := db.users ++
            [{ ID := max db.seq (maxID db.users) + 1, FirstName := n,
               LastName := o.last_name.getD "", DateOfBirth := o.date_of_birth.getD Time.zero,
               Ethnicity := o.ethnicity.getD "", Role := o.role.getD "",
               CreatedAt := now, UpdatedAt := now }],
          seq := max db.seq (maxID db.users) + 1 }) := by
    simp only [CreateUser, hs, DB.Create, if_true, if_neg hnf, hd]
    simp [Object.fields]
  refine ⟨_, hc, ?_, ?_, ?_, rfl, rfl, rfl, rfl, rfl, ?_⟩
  · rw [hc]
    rfl
  · simp
  · intro r hr heq
    simp only at heq
    by_cases hk : r.ID ≤ maxRowid
    · have := le_maxID db.users r hr hk
      have := le_max_right db.seq (maxID db.users)
      omega
    · omega
  · rw [hc]
    simp

theorem createUser_created_witness :
    ∃ user, CreateUser fixtures clock db1 bodyJohnDoe =
        (JSON StatusCreated [("data", .object user)],
          { users := db1.users ++ [user], seq := user.ID }) ∧
      (CreateUser fixtures clock db1 bodyJohnDoe).1.Code = 201 ∧
      user.ID ≠ 0 ∧ (∀ r ∈ db1.users, r.ID ≠ user.ID) ∧
      user.FirstName = "John" ∧
      user.LastName = johnDoe.last_name.getD "" ∧
      user.DateOfBirth = johnDoe.date_of_birth.getD Time.zero ∧
      user.Ethnicity = johnDoe.ethnicity.getD "" ∧
      user.Role = johnDoe.role.getD "" ∧
      user ∈ (CreateUser fixtures clock db1 bodyJohnDoe).2.users :=
  createUser_created fixtures clock db1 bodyJohnDoe johnDoe "John" (by decide) (by decide) rfl
    (by decide) (by decide)

/-! ## DeleteUser -/

/-- C4: when a stored record has the identifier of the request, DeleteUser
responds 200 with the body {"data": "User deleted successfully"}; the store
afterwards holds the other rows and no row of that identifier, and GetUser for
the same identifier on it responds 404. -/
theorem deleteUser_then_getUser (key : String → Option Nat) (db : DB) (id : String) (u : User)
    (hv : db.Valid) (hu : u ∈ db.users) (hid : key id = some u.ID) :
    (DeleteUser key db id).1 = JSON StatusOK [("data", .string "User deleted successfully")] ∧
    (DeleteUser key db id).1.Code = 200 ∧
    (DeleteUser key db id).2.users = db.users.filter (fun r => r.ID != u.ID) ∧
    (∀ r ∈ (DeleteUser key db id).2.users, r.ID ≠ u.ID) ∧
    (GetUser key (DeleteUser key db id).2 id).1 =
      JSON StatusNotFound [("error", .string "User not found")] ∧
    (GetUser key (DeleteUser key db id).2 id).1.Code = 404 := by
  obtain ⟨v, hf, hvm, hvid⟩ := first_exists key db id u hu hid
  have h0 : v.ID ≠ 0 := hv.1 v hvm
  have hd : DeleteUser key db id =
      (JSON StatusOK [("data", .string "User deleted successfully")],
        { db with users := db.users.filter (fun r => r.ID != u.ID) }) := by
    have h0u : u.ID ≠ 0 := hvid ▸ h0
    simp [DeleteUser, hf, DB.Delete, h0u, hvid]
  have hne : ∀ r ∈ db.users.filter (fun r => r.ID != u.ID), r.ID ≠ u.ID := by
    intro r hr
    simpa using (List.mem_filter.mp hr).2
  have hg : GetUser key { db with users := db.users.filter (fun r => r.ID != u.ID) } id =
      (JSON StatusNotFound [("error", .string "User not found")],
        { db with users := db.users.filter (fun r => r.ID != u.ID) }) := by
    have hn := first_eq_none key { db with users := db.users.filter (fun r => r.ID != u.ID) } id
      (by
        intro r hr
        rw [hid]
        intro heq
        exact hne r hr (Option.some.inj heq).symm)
    simp [GetUser, hn]
  rw [hd]
  refine ⟨rfl, rfl, rfl, hne, ?_, ?_⟩
  · simp only [hg]
  · simp only [hg]
    rfl

theorem deleteUser_then_getUser_witness :
    (DeleteUser decimal db1 "1").1 = JSON StatusOK [("data", .string "User deleted successfully")] ∧
    (DeleteUser decimal db1 "1").1.Code = 200 ∧
    (DeleteUser decimal db1 "1").2.users = db1.users.filter (fun r => r.ID != bob.ID) ∧
    (∀ r ∈ (DeleteUser decimal db1 "1").2.users, r.ID ≠ bob.ID) ∧
    (GetUser decimal (DeleteUser decimal db1 "1").2 "1").1 =
      JSON StatusNotFound [("error", .string "User not found")] ∧
    (GetUser decimal (DeleteUser decimal db1 "1").2 "1").1.Code = 404 :=
  deleteUser_then_getUser decimal db1 "1" bob (by decide) (by decide) (by decide)

/-! ## UpdateUser -/

/-- C5: for a stored record and an update request on its identifier whose body
carries a new non-empty first_name and omits last_name, date_of_birth,
ethnicity and role, UpdateUser responds 200 with a "data" record whose first
name is the new value and whose last name, date of birth, ethnicity and role
are those the record had; when the body carries no id either, that record
replaces the old one in the store under the same identifier. -/
theorem updateUser_first_name (codec : Codec) (key : String → Option Nat) (now : Time)
    (db : DB) (id : String) (u : User) (body : String) (o : Object) (n : String)
    (hv : db.Valid) (hu : u ∈ db.users) (hid : key id = some u.ID)
    (hb : Decode codec body = .object o) (hr : o.id.getD 0 ≤ maxUint)
    (h1 : o.first_name = some n) (hn : n ≠ "")
    (h2 : o.last_name = none) (h3 : o.date_of_birth = none)
    (h4 : o.ethnicity = none) (h5 : o.role = none) :
    ∃ user, (UpdateUser codec key now db id body).1 = JSON StatusOK [("data", .object user)] ∧
      (UpdateUser codec key now db id body).1.Code = 200 ∧
      user.FirstName = n ∧
      user.LastName = u.LastName ∧
      user.DateOfBirth = u.DateOfBirth ∧
      user.Ethnicity = u.Ethnicity ∧
      user.Role = u.Role ∧
      (o.id = none → user.ID = u.ID ∧
        (UpdateUser codec key now db id body).2.users =
          db.users.map (fun r => if r.ID = u.ID then user else r)) := by
  have hf := first_of_mem key db id u hu hid hv.2
  have hs := bind_ok codec body o n hb hr h1 hn
  have hres := updateUser_ok_fst codec key now db id body u o.fields hf hs
  refine ⟨assign now o.fields u, hres, by rw [hres]; rfl, ?_, ?_, ?_, ?_, ?_, ?_⟩
  · simp [assign, Object.fields, h1, hn]
  · simp [assign, Object.fields, h2]
  · simp [assign, Object.fields, h3]
  · simp [assign, Object.fields, h4]
  · simp [assign, Object.fields, h5]
  · intro h0
    have hz : o.fields.ID = 0 := by simp [Object.fields, h0]
    have hi : (assign now o.fields u).ID = u.ID := by simp [assign, hz]
    refine ⟨hi, ?_⟩
    have hne : u.ID ≠ 0 := hv.1 u hu
    simp only [UpdateUser, hf, hs, DB.Updates, hne, hi, if_false, if_true, ne_eq,
      not_true_eq_false, false_and]
    apply List.map_congr_left
    intro r hr
    by_cases hru : r.ID = u.ID
    · rw [if_pos hru, if_pos hru, eq_of_id_eq db.users hv.2 u r hu hr hru]
    · rw [if_neg hru, if_neg hru]

theorem updateUser_first_name_witness :
    ∃ user, (UpdateUser fixtures decimal clock db1 "1" bodyFirstNameRobert).1 =
        JSON StatusOK [("data", .object user)] ∧
      (UpdateUser fixtures decimal clock db1 "1" bodyFirstNameRobert).1.Code = 200 ∧
      user.FirstName = "Robert" ∧
      user.LastName = bob.LastName ∧
      user.DateOfBirth = bob.DateOfBirth ∧
      user.Ethnicity = bob.Ethnicity ∧
      user.Role = bob.Role ∧
      (firstNameRobert.id = none → user.ID = bob.ID ∧
        (UpdateUser fixtures decimal clock db1 "1" bodyFirstNameRobert).2.users =
          db1.users.map (fun r => if r.ID = bob.ID then user else r)) :=
  updateUser_first_name fixtures decimal clock db1 "1" bob bodyFirstNameRobert firstNameRobert
    "Robert" (by decide) (by decide) (by decide) (by decide) (by decide) rfl (by decide)
    rfl rfl rfl rfl

/-- C6, as the claim states it, fails: the body that holds the object with a
new first name followed by one more closing brace is not syntactically valid
JSON, and on the stored record with identifier 1 it is answered with 200 and
the record is rewritten with the new first name. -/
theorem updateUser_trailing_text_accepted :
    bob ∈ db1.users ∧ decimal "1" = some bob.ID ∧
    Valid bodyTrailingBrace = false ∧
    readValue bodyTrailingBrace = some (bodyFirstNameRobert, String.singleton rightBrace) ∧
    UpdateUser fixtures decimal clock db1 "1" bodyTrailingBrace =
      (JSON StatusOK [("data", .object { bob with FirstName := "Robert", UpdatedAt := clock })],
        { users := [{ bob with FirstName := "Robert", UpdatedAt := clock }], seq := 1 }) ∧
    (UpdateUser fixtures decimal clock db1 "1" bodyTrailingBrace).1.Code = 200 ∧
    (UpdateUser fixtures decimal clock db1 "1" bodyTrailingBrace).2 ≠ db1 := by
  decide

/-- C6, amended: for a stored record and an update request on its identifier
whose body does not begin with a complete JSON value (a syntax error before
the end of its first value, or an end too early), so that the body is not
valid JSON, UpdateUser responds 400 with the decoder's message under "error",
and the store, the record in it included, is unchanged.  What follows the
first value of a body is not looked at. -/
theorem updateUser_undecodable (codec : Codec) (key : String → Option Nat) (now : Time)
    (db : DB) (id : String) (u : User) (body : String)
    (hu : u ∈ db.users) (hid : key id = some u.ID) (h : readValue body = none) :
    Valid body = false ∧
    UpdateUser codec key now db id body =
      (JSON StatusBadRequest [("error", .string (codec.syntaxError body))], db) ∧
    (UpdateUser codec key now db id body).1.Code = 400 ∧
    (UpdateUser codec key now db id body).2 = db ∧
    u ∈ (UpdateUser codec key now db id body).2.users := by
  obtain ⟨v, hf, _, _⟩ := first_exists key db id u hu hid
  have he := updateUser_error codec key now db id body v _ hf
    (bind_error_undecodable codec body _ (decode_undecodable codec body h))
  rw [he]
  exact ⟨not_valid_of_readValue_none body h, rfl, rfl, rfl, hu⟩

theorem updateUser_undecodable_witness :
    Valid bodyInvalid = false ∧
    UpdateUser fixtures decimal clock db1 "1" bodyInvalid =
      (JSON StatusBadRequest [("error", .string (fixtures.syntaxError bodyInvalid))], db1) ∧
    (UpdateUser fixtures decimal clock db1 "1" bodyInvalid).1.Code = 400 ∧
    (UpdateUser fixtures decimal clock db1 "1" bodyInvalid).2 = db1 ∧
    bob ∈ (UpdateUser fixtures decimal clock db1 "1" bodyInvalid).2.users :=
  updateUser_undecodable fixtures decimal clock db1 "1" bob bodyInvalid (by decide) (by decide)
    (by decide)

/-- C7, as the claim states it, fails: on the stored record with identifier 1
the well-formed body that holds a last name and omits first_name is answered
with 400 and not with 200, and the store is left as it was. -/
theorem updateUser_without_first_name_rejected :
    bob ∈ db1.users ∧ decimal "1" = some bob.ID ∧
    Valid bodyLastNameSmith = true ∧
    Decode fixtures bodyLastNameSmith = .object lastNameSmith ∧
    lastNameSmith.first_name = none ∧ lastNameSmith.last_name = some "Smith" ∧
    (UpdateUser fixtures decimal clock db1 "1" bodyLastNameSmith).1.Code = 400 ∧
    (UpdateUser fixtures decimal clock db1 "1" bodyLastNameSmith).1.Code ≠ 200 ∧
    (UpdateUser fixtures decimal clock db1 "1" bodyLastNameSmith).2 = db1 := by
  decide

/-- C7, amended: for a stored record and an update request on its identifier,
UpdateUser responds 200, with a "data" record, exactly when the first JSON
value of the body decodes to an object that holds a non-empty first_name and
an id, if any, within 64 bits, whatever other keys it holds; in every other
case (first_name missing or empty, an id beyond 64 bits, a value that does not
decode, a body without a first value) it responds 400 with a body holding only
the key "error" and leaves the store unchanged. -/
theorem updateUser_object_status (codec : Codec) (key : String → Option Nat) (now : Time)
    (db : DB) (id : String) (u : User) (body : String)
    (hu : u ∈ db.users) (hid : key id = some u.ID) :
    ((UpdateUser codec key now db id body).1.Code = 200 ↔
      ∃ o n, Decode codec body = .object o ∧ o.id.getD 0 ≤ maxUint ∧
        o.first_name = some n ∧ n ≠ "") ∧
    ((UpdateUser codec key now db id body).1.Code = 200 →
      ∃ user, (UpdateUser codec key now db id body).1.Body = [("data", .object user)]) ∧
    ((UpdateUser codec key now db id body).1.Code ≠ 200 →
      (UpdateUser codec key now db id body).1.Code = 400 ∧
      (∃ err, (UpdateUser codec key now db id body).1.Body = [("error", .string err)]) ∧
      (UpdateUser codec key now db id body).2 = db) := by
  obtain ⟨v, hf, _, _⟩ := first_exists key db id u hu hid
  cases hs : ShouldBindJSON codec body with
  | error err =>
    have he := updateUser_error codec key now db id body v err hf hs
    have hno : ¬ ∃ o n, Decode codec body = .object o ∧ o.id.getD 0 ≤ maxUint ∧
        o.first_name = some n ∧ n ≠ "" := by
      intro hex
      obtain ⟨input, hi⟩ := (bind_ok_iff codec body).mpr hex
      rw [hs] at hi
      cases hi
    have hcode : (UpdateUser codec key now db id body).1.Code ≠ 200 := by
      rw [he]
      simp [JSON, StatusBadRequest]
    refine ⟨⟨fun h => absurd h hcode, fun h => absurd h hno⟩, fun h => absurd h hcode, ?_⟩
    intro _
    rw [he]
    exact ⟨rfl, ⟨_, rfl⟩, rfl⟩
  | ok input =>
    have hr := updateUser_ok_fst codec key now db id body v input hf hs
    have hcode : (UpdateUser codec key now db id body).1.Code = 200 := by
      rw [hr]
      rfl
    refine ⟨⟨fun _ => (bind_ok_iff codec body).mp ⟨input, hs⟩, fun _ => hcode⟩, ?_,
      fun h => absurd hcode h⟩
    intro _
    rw [hr]
    exact ⟨_, rfl⟩

theorem updateUser_object_status_witness :
    ((UpdateUser fixtures decimal clock db1 "1" bodyFirstNameRobert).1.Code = 200 ↔
      ∃ o n, Decode fixtures bodyFirstNameRobert = .object o ∧ o.id.getD 0 ≤ maxUint ∧
        o.first_name = some n ∧ n ≠ "") ∧
    ((UpdateUser fixtures decimal clock db1 "1" bodyFirstNameRobert).1.Code = 200 →
      ∃ user, (UpdateUser fixtures decimal clock db1 "1" bodyFirstNameRobert).1.Body =
        [("data", .object user)]) ∧
    ((UpdateUser fixtures decimal clock db1 "1" bodyFirstNameRobert).1.Code ≠ 200 →
      (UpdateUser fixtures decimal clock db1 "1" bodyFirstNameRobert).1.Code = 400 ∧
      (∃ err, (UpdateUser fixtures decimal clock db1 "1" bodyFirstNameRobert).1.Body =
        [("error", .string err)]) ∧
      (UpdateUser fixtures decimal clock db1 "1" bodyFirstNameRobert).2 = db1) :=
  updateUser_object_status fixtures decimal clock db1 "1" bob bodyFirstNameRobert (by decide)
    (by decide)

/-- C8, at a failing input: on the store holding one record under identifier 1,
the update request on identifier 1 with the body {"id": 2, "first_name":
"Robert"} is answered with 200 and a record of identifier 2; afterwards the
store holds that record under identifier 2 and none under identifier 1, so
GetUser responds 404 for identifier 1 and 200 for identifier 2. -/
theorem updateUser_body_id_moves_record :
    bob ∈ db1.users ∧ decimal "1" = some bob.ID ∧
    UpdateUser fixtures decimal clock db1 "1" bodyIdTwoRobert =
      (JSON StatusOK [("data", .object
        { bob with ID := 2, FirstName := "Robert", UpdatedAt := clock })],
        { users := [{ bob with ID := 2, FirstName := "Robert", UpdatedAt := clock }],
          seq := 1 }) ∧
    (GetUser decimal (UpdateUser fixtures decimal clock db1 "1" bodyIdTwoRobert).2 "1").1.Code
      = 404 ∧
    (GetUser decimal (UpdateUser fixtures decimal clock db1 "1" bodyIdTwoRobert).2 "2").1.Code
      = 200 := by
  decide

end GolangExample
